import Mathlib

/-!
Verification development for the Interlock Network ink! smart contracts
(`contract_uanft/lib.rs` and the ILOCK MVP token component).

The uanft contract (PSP34 universal-access NFT with a built-in n-of-m
multisig coordinator) is embedded shallowly below: contract storage becomes
a Lean structure, every `#[ink(message)]` becomes a pure function from the
pre-state together with the environment inputs (`caller`, `block_timestamp`)
to a result and a post-state.  Machine integers (u16, u32, u64, u128) are
modelled as `Nat` with the checked-arithmetic failure points of the source
made explicit against the corresponding bound.  `Error::Custom(string)`
values are mapped one-to-one onto constructors of the `Err` inductive named
by the string the source puts in the message.

ink! 4 execution semantics: an ink! message that returns `Err` reverts every
storage write made during the call (and every write of nested cross-contract
calls), so the observable post-state of a failed message is the pre-state.
Each message is therefore embedded in two layers: a raw function returning
the result together with the (possibly partially mutated) storage as the
Rust body left it, and `applyOp`, which keeps the raw post-state only on
`Ok` and restores the pre-state on `Err`.

The ILOCK MVP token contract itself (`contract_ilockmvp/lib.rs`) is not part
of the source tree here; only its end-to-end tests are.  The vesting payout
arithmetic and the owner-coupled transfer accounting are therefore modelled
from the specification text (definitions marked `Modelled from the spec:`).
-/

/-- Addresses are opaque comparable identifiers; we use `Nat`.
The ink! zero address `AccountId::from([0u8; 32])` is modelled as `0` and
the `AccountID::default()` address `AccountId::from([1u8; 32])` as `1`. -/
abbrev AccountID := Nat

/-- Model of `AccountId::from([0_u8; 32])`. -/
def ZERO_ADDRESS : AccountID := 0

/-- Model of `AccountID::default()`, i.e. `AccountId::from([1_u8; 32])`. -/
def DEFAULT_ACCOUNT : AccountID := 1

/-- Constant `TIME_LIMIT_MIN` from the source (ten minutes in ms). -/
def TIME_LIMIT_MIN : Nat := 600000

/-- Constant `THRESHOLD_MIN` from the source. -/
def THRESHOLD_MIN : Nat := 2

/-- Multisig function codes from the source. -/
def TRANSFER_OWNERSHIP : Nat := 0

def UNPAUSE : Nat := 1

def ADD_SIGNATORY : Nat := 2

def REMOVE_SIGNATORY : Nat := 3

def CHANGE_TIMELIMIT : Nat := 4

def CHANGE_THRESHOLD : Nat := 5

def UPDATE_CONTRACT : Nat := 6

/-- Exclusive upper bound of `u64`. -/
def U64_LIMIT : Nat := 18446744073709551616

/-- Largest `u16` value; `u16::checked_add(1)` fails at this threshold value. -/
def U16_MAX : Nat := 65535

/-- Exclusive upper bound of `u32`. -/
def U32_LIMIT : Nat := 4294967296

/-- The error outcomes of the uanft contract: each constructor corresponds to
one `Error::Custom(format!(..))` string of the source (or to the openbrush /
PSP34 error the source surfaces); `Trap` stands for a Rust panic (`unwrap`),
which aborts and reverts the whole call. -/
inductive Err where
  | CallerNotSignatory
  | NotEnoughSignatures
  | TransactionStale
  | InvalidFunction
  | WrongFunction
  | TransactionAlreadyOrdered
  | CannotReorder
  | AlreadySigned
  | IsZeroAddress
  | AlreadySignatory
  | NoSignatory
  | TooFewSignatories
  | Overflow
  | UnderThresholdMin
  | UnderTimeLimit
  | CallerNotOwner
  | IsPaused
  | NotPaused
  | TokenExists
  | CapReached
  | PriceTooLow
  | SocketError
  | InvalidInput
  | TokenLocked
  | Trap
deriving DecidableEq, Repr

/-- PSP34 token id: the source uses `Id::U8(0)` for collection metadata and
`Id::U64(n)` for minted tokens. -/
inductive NftId where
  | U8 (n : Nat)
  | U64 (n : Nat)
deriving DecidableEq, Repr, Inhabited

/-- Struct `Signature` from the source. -/
structure Signature where
  signer : AccountID
  time : Nat
deriving DecidableEq, Repr, Inhabited

/-- Struct `Transaction` from the source (the singleton in-flight multisig
transaction slot). -/
structure Transaction where
  orderer : AccountID
  signatures : List Signature
  function : Nat
  time : Nat
  ready : Bool
deriving DecidableEq, Repr, Inhabited

/-- Rust `Transaction::default()`: `orderer` defaults to `AccountID::default()`,
which is the address `[1u8; 32]`. -/
def Transaction.rustDefault : Transaction :=
  { orderer := DEFAULT_ACCOUNT, signatures := [], function := 0, time := 0, ready := false }

/-- Struct `MultisigData` from the source. -/
structure MultisigData where
  tx : Transaction
  signatories : List AccountID
  threshold : Nat
  timelimit : Nat
deriving DecidableEq, Repr, Inhabited

/-- Struct `AccessData` from the source (cap, self-mint price, collections). -/
structure AccessData where
  cap : Nat
  nft_psp22price : Nat
  collections : List (AccountID × List NftId)
deriving DecidableEq, Repr, Inhabited

deriving instance DecidableEq for Except

/-- Association-list lookup, modelling `ink::storage::Mapping::get`. -/
def assocGet {α β : Type} [DecidableEq α] : List (α × β) → α → Option β
  | [], _ => none
  | (a, b) :: t, k => if a = k then some b else assocGet t k

/-- Association-list overwrite, modelling `ink::storage::Mapping::insert`. -/
def assocInsert {α β : Type} [DecidableEq α] (l : List (α × β)) (k : α) (v : β) :
    List (α × β) :=
  (k, v) :: l.filter (fun p => p.1 ≠ k)

/-- Contract storage of `Psp34Nft` (the fields the embedded operations read or
write; `socketTransfers` is a ghost log of the cross-contract `call_socket`
invocations, recording the `(address, amount)` arguments passed through the
socket to the PSP22 token contract). -/
structure Psp34Nft where
  psp34_owners : List (NftId × AccountID)
  ownable_owner : AccountID
  paused : Bool
  access : AccessData
  operator : AccountID
  token_address : AccountID
  multisig : MultisigData
  last_token_id : Nat
  attribute_count : Nat
  attribute_names : List (Nat × String)
  attributes : List ((NftId × String) × String)
  locked_tokens : List NftId
  locked_token_count : Nat
  is_attribute : List String
  socketTransfers : List (AccountID × Nat)
deriving DecidableEq, Repr, Inhabited

namespace Psp34Nft

/-- Constructor `Psp34Nft::new`: the three `panic!` paths of the source become
`none` (a panicking constructor aborts contract creation entirely). -/
def new (name symbol cls : String) (cap price token_address timelimit : Nat)
    (caller signatory_2 signatory_3 : AccountID) : Option Psp34Nft :=
  if caller = signatory_2 ∨ caller = signatory_3 then none
  else if signatory_2 = signatory_3 then none
  else if timelimit < TIME_LIMIT_MIN then none
  else some
    { psp34_owners := []
      ownable_owner := caller
      paused := false
      access := { cap := cap, nft_psp22price := price, collections := [] }
      operator := caller
      token_address := token_address
      multisig :=
        { tx := Transaction.rustDefault
          signatories := [caller, signatory_2, signatory_3]
          threshold := 2
          timelimit := timelimit }
      last_token_id := 0
      attribute_count := 0
      attribute_names := []
      attributes :=
        [ ((NftId.U8 0, "name"), name),
          ((NftId.U8 0, "symbol"), symbol),
          ((NftId.U8 0, "class"), cls) ]
      locked_tokens := []
      locked_token_count := 0
      is_attribute := []
      socketTransfers := [] }

/-- The `match function.as_str()` table shared by `check_multisig`,
`order_multisigtx` and `sign_multisigtx`. -/
def parseFunction (f : String) : Option Nat :=
  if f = "TRANSFER_OWNERSHIP" then some TRANSFER_OWNERSHIP
  else if f = "UNPAUSE" then some UNPAUSE
  else if f = "ADD_SIGNATORY" then some ADD_SIGNATORY
  else if f = "REMOVE_SIGNATORY" then some REMOVE_SIGNATORY
  else if f = "CHANGE_THRESHOLD" then some CHANGE_THRESHOLD
  else if f = "CHANGE_TIMELIMIT" then some CHANGE_TIMELIMIT
  else if f = "UPDATE_CONTRACT" then some UPDATE_CONTRACT
  else none

/-- Function `check_multisig` from the source: the consumption check run at
the top of every privileged operation.  `now` is `env().block_timestamp()`
and `caller` is `env().caller()`. -/
def check_multisig (s : Psp34Nft) (caller : AccountID) (now : Nat) (f : String) :
    Except Err Unit :=
  if caller ∉ s.multisig.signatories then .error .CallerNotSignatory
  else if s.multisig.tx.signatures.length < s.multisig.threshold then
    .error .NotEnoughSignatures
  else if s.multisig.timelimit ≤ now - s.multisig.tx.time then
    .error .TransactionStale
  else
    match parseFunction f with
    | none => .error .InvalidFunction
    | some c =>
      if c ≠ s.multisig.tx.function then .error .WrongFunction
      else .ok ()

/-- Message `order_multisigtx` from the source.  Note, faithfully to the
source: the success branch updates `tx.function`, `tx.time` and
`tx.signatures` but never assigns `tx.orderer`, which keeps whatever value
it had (initially `AccountID::default()`). -/
def order_multisigtx (s : Psp34Nft) (caller : AccountID) (now : Nat) (f : String) :
    Except Err Unit × Psp34Nft :=
  if caller ∉ s.multisig.signatories then (.error .CallerNotSignatory, s)
  else if now - s.multisig.tx.time < s.multisig.timelimit then
    (.error .TransactionAlreadyOrdered, s)
  else if s.multisig.timelimit ≤ now - s.multisig.tx.time ∧
      caller = s.multisig.tx.orderer then
    (.error .CannotReorder, s)
  else
    match parseFunction f with
    | none => (.error .InvalidFunction, s)
    | some c =>
      (.ok (),
        { s with multisig :=
          { s.multisig with tx :=
            { s.multisig.tx with
              function := c
              time := now
              signatures := [{ signer := caller, time := now }] } } })

/-- Message `sign_multisigtx` from the source. -/
def sign_multisigtx (s : Psp34Nft) (caller : AccountID) (now : Nat) (f : String) :
    Except Err Unit × Psp34Nft :=
  if caller ∉ s.multisig.signatories then (.error .CallerNotSignatory, s)
  else
    match parseFunction f with
    | none => (.error .InvalidFunction, s)
    | some c =>
      if c ≠ s.multisig.tx.function then (.error .WrongFunction, s)
      else if s.multisig.timelimit ≤ now - s.multisig.tx.time then
        (.error .TransactionStale, s)
      else if s.multisig.tx.signatures.any (fun g => g.signer = caller) then
        (.error .AlreadySigned, s)
      else
        (.ok (),
          { s with multisig :=
            { s.multisig with tx :=
              { s.multisig.tx with
                signatures :=
                  s.multisig.tx.signatures ++ [{ signer := caller, time := now }] } } })

/-- Message `check_signatures` from the source; read-only.  Its staleness
comparison is strict (`>`), unlike the `>=` of `check_multisig` and
`sign_multisigtx`. -/
def check_signatures (s : Psp34Nft) (caller : AccountID) (now : Nat) :
    Except Err (List Signature) :=
  if caller ∉ s.multisig.signatories then .error .CallerNotSignatory
  else if s.multisig.timelimit < now - s.multisig.tx.time then
    .error .TransactionStale
  else .ok s.multisig.tx.signatures

/-- Message `add_signatory` from the source. -/
def add_signatory (s : Psp34Nft) (caller : AccountID) (now : Nat)
    (signatory : AccountID) (f : String) : Except Err Unit × Psp34Nft :=
  match s.check_multisig caller now f with
  | .error e => (.error e, s)
  | .ok () =>
    if signatory = ZERO_ADDRESS then (.error .IsZeroAddress, s)
    else if signatory ∈ s.multisig.signatories then (.error .AlreadySignatory, s)
    else
      (.ok (),
        { s with multisig :=
          { s.multisig with signatories := s.multisig.signatories ++ [signatory] } })

/-- Message `remove_signatory` from the source; `Vec::retain` becomes
`List.filter`, and the `u16::checked_add` on the threshold is made explicit
against `U16_MAX`. -/
def remove_signatory (s : Psp34Nft) (caller : AccountID) (now : Nat)
    (signatory : AccountID) (f : String) : Except Err Unit × Psp34Nft :=
  match s.check_multisig caller now f with
  | .error e => (.error e, s)
  | .ok () =>
    if signatory = ZERO_ADDRESS then (.error .IsZeroAddress, s)
    else if signatory ∉ s.multisig.signatories then (.error .NoSignatory, s)
    else if U16_MAX < s.multisig.threshold + 1 then (.error .Overflow, s)
    else if s.multisig.signatories.length ≤ s.multisig.threshold + 1 then
      (.error .TooFewSignatories, s)
    else
      (.ok (),
        { s with multisig :=
          { s.multisig with
            signatories := s.multisig.signatories.filter (fun a => a ≠ signatory) } })

/-- Message `change_threshold` from the source. -/
def change_threshold (s : Psp34Nft) (caller : AccountID) (now : Nat)
    (threshold : Nat) (f : String) : Except Err Unit × Psp34Nft :=
  match s.check_multisig caller now f with
  | .error e => (.error e, s)
  | .ok () =>
    if threshold < THRESHOLD_MIN then (.error .UnderThresholdMin, s)
    else if U16_MAX < threshold + 1 then (.error .Overflow, s)
    else if s.multisig.signatories.length < threshold + 1 then
      (.error .TooFewSignatories, s)
    else
      (.ok (), { s with multisig := { s.multisig with threshold := threshold } })

/-- Message `change_multisigtxtimelimit` from the source. -/
def change_multisigtxtimelimit (s : Psp34Nft) (caller : AccountID) (now : Nat)
    (timelimit : Nat) (f : String) : Except Err Unit × Psp34Nft :=
  match s.check_multisig caller now f with
  | .error e => (.error e, s)
  | .ok () =>
    if timelimit < TIME_LIMIT_MIN then (.error .UnderTimeLimit, s)
    else
      (.ok (), { s with multisig := { s.multisig with timelimit := timelimit } })

/-- Message `pause` from the source; `openbrush::pausable::_pause` fails when
the contract is already paused. -/
def pause (s : Psp34Nft) (caller : AccountID) : Except Err Unit × Psp34Nft :=
  if caller ∉ s.multisig.signatories then (.error .CallerNotSignatory, s)
  else if s.paused then (.error .IsPaused, s)
  else (.ok (), { s with paused := true })

/-- Message `unpause` from the source; `openbrush::pausable::_unpause` fails
when the contract is not paused. -/
def unpause (s : Psp34Nft) (caller : AccountID) (now : Nat) (f : String) :
    Except Err Unit × Psp34Nft :=
  match s.check_multisig caller now f with
  | .error e => (.error e, s)
  | .ok () =>
    if s.paused then (.ok (), { s with paused := false })
    else (.error .NotPaused, s)

/-- Message `transfer_ownership(newowner, function)` from the source (the
multisig-guarded one in the inherent impl, not the no-op `Ownable` trait
method). -/
def transfer_ownership (s : Psp34Nft) (caller : AccountID) (now : Nat)
    (newowner : AccountID) (f : String) : Except Err Unit × Psp34Nft :=
  match s.check_multisig caller now f with
  | .error e => (.error e, s)
  | .ok () =>
    if newowner = ZERO_ADDRESS then (.error .IsZeroAddress, s)
    else (.ok (), { s with ownable_owner := newowner })

/-- Message `update_contract` from the source.  After the multisig check it
calls `ink::env::set_code_hash`, which replaces the executing code but leaves
the storage embedded here untouched; the code hash itself is outside the
model. -/
def update_contract (s : Psp34Nft) (caller : AccountID) (now : Nat)
    (_code_hash : Nat) (f : String) : Except Err Unit × Psp34Nft :=
  match s.check_multisig caller now f with
  | .error e => (.error e, s)
  | .ok () => (.ok (), s)

/-- Helper `add_attribute_name` from the source; the `checked_add(1).unwrap()`
on the `u32` counter becomes an explicit `Trap` at the `u32` bound. -/
def add_attribute_name (s : Psp34Nft) (a : String) : Except Err Psp34Nft :=
  if a ∈ s.is_attribute then .ok s
  else if U32_LIMIT ≤ s.attribute_count + 1 then .error .Trap
  else
    .ok
      { s with
        attribute_count := s.attribute_count + 1
        attribute_names := assocInsert s.attribute_names (s.attribute_count + 1) a
        is_attribute := s.is_attribute ++ [a] }

/-- The metadata loop of `set_multiple_attributes`: for every pair it runs
`add_attribute_name` and `_set_attribute`. -/
def setAttrsLoop (id : NftId) : Psp34Nft → List (String × String) → Except Err Psp34Nft
  | s, [] => .ok s
  | s, (k, v) :: rest =>
    match s.add_attribute_name k with
    | .error e => .error e
    | .ok s1 => setAttrsLoop id { s1 with attributes := assocInsert s1.attributes (id, k) v } rest

/-- Message `set_multiple_attributes` from the source (`only_owner`,
`Id::U64(0)` rejected, locked tokens rejected). -/
def set_multiple_attributes (s : Psp34Nft) (caller : AccountID) (id : NftId)
    (metadata : List (String × String)) : Except Err Psp34Nft :=
  if caller ≠ s.ownable_owner then .error .CallerNotOwner
  else if id = NftId.U64 0 then .error .InvalidInput
  else if id ∈ s.locked_tokens then .error .TokenLocked
  else setAttrsLoop id s metadata

/-- Record the recipient collection update performed at the end of every mint
path (`collections.insert`). -/
def setCollections (s : Psp34Nft) (a : AccountID) (l : List NftId) : Psp34Nft :=
  { s with access := { s.access with collections := assocInsert s.access.collections a l } }

/-- Message `mint` from the source (`only_owner`, `when_not_paused`).  The
token-id counter is incremented before the cap check, so the error branches
after that point leave a partially mutated raw state; the PSP34
`_mint_to` duplicate-token check is inlined. -/
def mint (s : Psp34Nft) (caller : AccountID) : Except Err Unit × Psp34Nft :=
  if caller ≠ s.ownable_owner then (.error .CallerNotOwner, s)
  else if s.paused then (.error .IsPaused, s)
  else if U64_LIMIT ≤ s.last_token_id + 1 then (.error .Overflow, s)
  else
    let s1 : Psp34Nft := { s with last_token_id := s.last_token_id + 1 }
    if s1.access.cap ≤ s1.last_token_id then (.error .CapReached, s1)
    else
      match assocGet s1.psp34_owners (NftId.U64 s1.last_token_id) with
      | some _ => (.error .TokenExists, s1)
      | none =>
        let s2 : Psp34Nft :=
          { s1 with psp34_owners := assocInsert s1.psp34_owners (NftId.U64 s1.last_token_id) caller }
        let coll := (assocGet s2.access.collections caller).getD []
        (.ok (), s2.setCollections caller (coll ++ [NftId.U64 s1.last_token_id]))

/-- Message `mint_to` from the source. -/
def mint_to (s : Psp34Nft) (caller recipient : AccountID) : Except Err Unit × Psp34Nft :=
  if caller ≠ s.ownable_owner then (.error .CallerNotOwner, s)
  else if s.paused then (.error .IsPaused, s)
  else if U64_LIMIT ≤ s.last_token_id + 1 then (.error .Overflow, s)
  else
    let s1 : Psp34Nft := { s with last_token_id := s.last_token_id + 1 }
    if s1.access.cap ≤ s1.last_token_id then (.error .CapReached, s1)
    else
      match assocGet s1.psp34_owners (NftId.U64 s1.last_token_id) with
      | some _ => (.error .TokenExists, s1)
      | none =>
        let s2 : Psp34Nft :=
          { s1 with psp34_owners := assocInsert s1.psp34_owners (NftId.U64 s1.last_token_id) recipient }
        let coll := (assocGet s2.access.collections recipient).getD []
        (.ok (), s2.setCollections recipient (coll ++ [NftId.U64 s1.last_token_id]))

/-- Message `self_mint` from the source (`when_not_paused`, no owner check).
The price guard is `nft_psp22price > price`; on success the contract calls
`call_socket(minter, price, ..)`, which transfers the caller-supplied
`price` (not the stored price) through the socket to the PSP22 token
contract.  `socketOk` stands for the outcome of that external call, and the
ghost `socketTransfers` log records its arguments. -/
def self_mint (s : Psp34Nft) (caller : AccountID) (price : Nat) (socketOk : Bool) :
    Except Err Unit × Psp34Nft :=
  if s.paused then (.error .IsPaused, s)
  else if U64_LIMIT ≤ s.last_token_id + 1 then (.error .Overflow, s)
  else
    let s1 : Psp34Nft := { s with last_token_id := s.last_token_id + 1 }
    if s1.access.cap ≤ s1.last_token_id then (.error .CapReached, s1)
    else if price < s1.access.nft_psp22price then (.error .PriceTooLow, s1)
    else if socketOk = false then (.error .SocketError, s1)
    else
      let s2 : Psp34Nft := { s1 with socketTransfers := s1.socketTransfers ++ [(caller, price)] }
      match assocGet s2.psp34_owners (NftId.U64 s1.last_token_id) with
      | some _ => (.error .TokenExists, s2)
      | none =>
        let s3 : Psp34Nft :=
          { s2 with psp34_owners := assocInsert s2.psp34_owners (NftId.U64 s1.last_token_id) caller }
        let coll := (assocGet s3.access.collections caller).getD []
        (.ok (), s3.setCollections caller (coll ++ [NftId.U64 s1.last_token_id]))

/-- Message `mint_with_attributes` from the source. -/
def mint_with_attributes (s : Psp34Nft) (caller : AccountID)
    (metadata : List (String × String)) : Except Err Unit × Psp34Nft :=
  if caller ≠ s.ownable_owner then (.error .CallerNotOwner, s)
  else if s.paused then (.error .IsPaused, s)
  else if U64_LIMIT ≤ s.last_token_id + 1 then (.error .Overflow, s)
  else
    let s1 : Psp34Nft := { s with last_token_id := s.last_token_id + 1 }
    if s1.access.cap ≤ s1.last_token_id then (.error .CapReached, s1)
    else
      match assocGet s1.psp34_owners (NftId.U64 s1.last_token_id) with
      | some _ => (.error .TokenExists, s1)
      | none =>
        let s2 : Psp34Nft :=
          { s1 with psp34_owners := assocInsert s1.psp34_owners (NftId.U64 s1.last_token_id) caller }
        match s2.set_multiple_attributes caller (NftId.U64 s1.last_token_id) metadata with
        | .error e => (.error e, s2)
        | .ok s3 =>
          let coll := (assocGet s3.access.collections caller).getD []
          (.ok (), s3.setCollections caller (coll ++ [NftId.U64 s1.last_token_id]))

end Psp34Nft

/-- The public messages of the contract as a single operation alphabet, used
to reason about arbitrary execution histories. -/
inductive Op where
  | order (caller now : Nat) (f : String)
  | sign (caller now : Nat) (f : String)
  | addSig (caller now signatory : Nat) (f : String)
  | removeSig (caller now signatory : Nat) (f : String)
  | setThreshold (caller now threshold : Nat) (f : String)
  | setTimelimit (caller now timelimit : Nat) (f : String)
  | pauseOp (caller : Nat)
  | unpauseOp (caller now : Nat) (f : String)
  | transferOwn (caller now newowner : Nat) (f : String)
  | updateCode (caller now code_hash : Nat) (f : String)
  | mintOp (caller : Nat)
  | mintToOp (caller recipient : Nat)
  | selfMintOp (caller price : Nat) (socketOk : Bool)
  | mintAttrsOp (caller : Nat) (metadata : List (String × String))
deriving DecidableEq, Repr

/-- Dispatch an operation to the raw message body. -/
def runOp (s : Psp34Nft) : Op → Except Err Unit × Psp34Nft
  | .order c n f => s.order_multisigtx c n f
  | .sign c n f => s.sign_multisigtx c n f
  | .addSig c n a f => s.add_signatory c n a f
  | .removeSig c n a f => s.remove_signatory c n a f
  | .setThreshold c n t f => s.change_threshold c n t f
  | .setTimelimit c n t f => s.change_multisigtxtimelimit c n t f
  | .pauseOp c => s.pause c
  | .unpauseOp c n f => s.unpause c n f
  | .transferOwn c n a f => s.transfer_ownership c n a f
  | .updateCode c n h f => s.update_contract c n h f
  | .mintOp c => s.mint c
  | .mintToOp c r => s.mint_to c r
  | .selfMintOp c p b => s.self_mint c p b
  | .mintAttrsOp c md => s.mint_with_attributes c md

/-- Observable effect of one message under ink! 4 semantics: a message that
returns `Err` reverts every storage write of the call, so the post-state is
kept only on `Ok`. -/
def applyOp (s : Psp34Nft) (op : Op) : Psp34Nft :=
  match runOp s op with
  | (.ok _, t) => t
  | (.error _, _) => s

/-- Observable state after a sequence of messages. -/
def run (s : Psp34Nft) (ops : List Op) : Psp34Nft :=
  ops.foldl applyOp s

/-- Whether an operation is one of the four mint paths. -/
def isMintOp : Op → Bool
  | .mintOp _ => true
  | .mintToOp _ _ => true
  | .selfMintOp _ _ _ => true
  | .mintAttrsOp _ _ => true
  | _ => false

/-- Number of successful mints along a history. -/
def mintCount : Psp34Nft → List Op → Nat
  | _, [] => 0
  | s, op :: t =>
    (if isMintOp op ∧ (runOp s op).1 = .ok () then 1 else 0) + mintCount (applyOp s op) t

/-- Modelled from the spec: the ILOCK MVP contract (`contract_ilockmvp/lib.rs`)
is absent from the source tree (only its e2e tests are present), so the
vesting payout rule of §4.3 is taken from the specification text: a
stakeholder with `share` in a pool with `vest` vesting periods and `cliff`
cliff periods receives `share / vest` (floor division) in each vesting
period except the last (`cliff + vest - 1`), which additionally receives the
remainder `share % vest`. -/
def vestPayout (share vest cliff p : Nat) : Nat :=
  if p = cliff + vest - 1 then share / vest + share % vest else share / vest

/-- Modelled from the spec: cumulative amount paid to a stakeholder after the
`vest` successful `distribute_tokens` calls spanning the full schedule, one
per period `cliff, cliff + 1, ..., cliff + vest - 1`. -/
def schedulePaid (share vest cliff : Nat) : Nat :=
  Finset.sum (Finset.range vest) (fun i => vestPayout share vest cliff (cliff + i))

/-- Error outcomes of the spec-modelled ILOCK MVP ledger. -/
inductive LedgerErr where
  | ZeroAddress
  | InsufficientBalance
  | CapExceeded
deriving DecidableEq, Repr

/-- Modelled from the spec: the accounting state of the ILOCK MVP ledger
(§4.1) — account balances, circulating supply, the REWARDS pool sub-balance
and the distinguished owner/treasury address, with the immutable
`SUPPLY_CAP`. -/
structure Ledger where
  balances : List (AccountID × Nat)
  totalSupply : Nat
  rewardsPool : Nat
  owner : AccountID
  supplyCap : Nat
deriving DecidableEq, Repr, Inhabited

/-- Balance accessor of the spec-modelled ledger. -/
def Ledger.balanceOf (l : Ledger) (a : AccountID) : Nat :=
  (assocGet l.balances a).getD 0

/-- Modelled from the spec: `transfer(sender, recipient, amount)` of the
ILOCK MVP ledger (§4.1, `contract_ilockmvp/lib.rs` absent from the source
tree).  Zero addresses are rejected, insufficient balance is rejected, the
balances move, and then the distinguished-owner coupling applies: a transfer
whose sender is the owner/treasury is emission (circulating supply grows by
`amount`, subject to `SUPPLY_CAP`); a transfer whose recipient is the owner
is retirement (circulating supply shrinks by `amount` and the REWARDS pool
sub-balance grows by `amount`); any other transfer leaves the supply and the
REWARDS pool untouched. -/
def Ledger.transfer (l : Ledger) (sender recipient : AccountID) (amount : Nat) :
    Except LedgerErr Ledger :=
  if sender = ZERO_ADDRESS then .error .ZeroAddress
  else if recipient = ZERO_ADDRESS then .error .ZeroAddress
  else if l.balanceOf sender < amount then .error .InsufficientBalance
  else
    let moved : List (AccountID × Nat) :=
      assocInsert (assocInsert l.balances sender (l.balanceOf sender - amount))
        recipient ((assocGet (assocInsert l.balances sender (l.balanceOf sender - amount))
          recipient).getD 0 + amount)
    if sender = l.owner then
      if l.supplyCap < l.totalSupply + amount then .error .CapExceeded
      else .ok { l with balances := moved, totalSupply := l.totalSupply + amount }
    else if recipient = l.owner then
      .ok
        { l with
          balances := moved
          totalSupply := l.totalSupply - amount
          rewardsPool := l.rewardsPool + amount }
    else .ok { l with balances := moved }

/-- Concrete contract instance for exercising `order_multisigtx`: owner 10,
further signatories 20 and 30, time limit 600000 ms. -/
def c2Init : Psp34Nft :=
  (Psp34Nft.new "n" "s" "c" 100 5 99 600000 10 20 30).getD default

/-- C2 failing input, evaluated: signatory 20 successfully orders a multisig
transaction at time 600000; the transaction goes stale (600000 ms elapse);
the *same* address 20 then orders again at time 1200000 and the call
*succeeds* instead of failing with CannotReorder, because the success branch
of `order_multisigtx` never assigns `tx.orderer` (it stays at the
`AccountID::default()` address, as the last conjunct shows). -/
theorem order_multisigtx_same_orderer_reorders_after_stale :
    Psp34Nft.new "n" "s" "c" 100 5 99 600000 10 20 30 = some c2Init ∧
    (c2Init.order_multisigtx 20 600000 "UNPAUSE").1 = Except.ok () ∧
    c2Init.multisig.timelimit ≤
      1200000 - (c2Init.order_multisigtx 20 600000 "UNPAUSE").2.multisig.tx.time ∧
    ((c2Init.order_multisigtx 20 600000 "UNPAUSE").2.order_multisigtx 20 1200000 "UNPAUSE").1 =
      Except.ok () ∧
    (c2Init.order_multisigtx 20 600000 "UNPAUSE").2.multisig.tx.orderer = DEFAULT_ACCOUNT := by
  decide

/-- Concrete contract instance for inspecting the transaction record written
by `order_multisigtx`: owner 12, further signatories 22 and 30. -/
def c3Init : Psp34Nft :=
  (Psp34Nft.new "n" "s" "c" 50 7 99 600000 12 22 30).getD default

/-- C3 failing input, evaluated: signatory 30 successfully orders
ADD_SIGNATORY at time 700000.  The resulting singleton transaction record has
the requested function, the order time and exactly the orderer's own first
signature, but its `orderer` field is *not* the caller 30 — the source never
assigns `tx.orderer`, so it still holds the `AccountID::default()` address. -/
theorem order_multisigtx_does_not_record_orderer :
    (c3Init.order_multisigtx 30 700000 "ADD_SIGNATORY").1 = Except.ok () ∧
    (c3Init.order_multisigtx 30 700000 "ADD_SIGNATORY").2.multisig.tx.function = ADD_SIGNATORY ∧
    (c3Init.order_multisigtx 30 700000 "ADD_SIGNATORY").2.multisig.tx.time = 700000 ∧
    (c3Init.order_multisigtx 30 700000 "ADD_SIGNATORY").2.multisig.tx.signatures =
      [{ signer := 30, time := 700000 }] ∧
    (c3Init.order_multisigtx 30 700000 "ADD_SIGNATORY").2.multisig.tx.orderer = DEFAULT_ACCOUNT ∧
    DEFAULT_ACCOUNT ≠ 30 := by
  decide

/-- C9: at exact expiry (elapsed time equal to the time limit) the staleness
boundary is treated inconsistently: `check_multisig` and `sign_multisigtx`
reject with TransactionStale (their comparison is `>=`), while
`check_signatures` still treats the transaction as fresh and returns the
signature list (its comparison is strictly `>`). -/
theorem staleness_boundary_inconsistent_at_exact_expiry
    (s : Psp34Nft) (caller : AccountID) (now : Nat) (f : String)
    (hmem : caller ∈ s.multisig.signatories)
    (hcnt : s.multisig.threshold ≤ s.multisig.tx.signatures.length)
    (hfn : Psp34Nft.parseFunction f = some s.multisig.tx.function)
    (hexp : now - s.multisig.tx.time = s.multisig.timelimit) :
    s.check_multisig caller now f = Except.error Err.TransactionStale ∧
    s.sign_multisigtx caller now f = (Except.error Err.TransactionStale, s) ∧
    s.check_signatures caller now = Except.ok s.multisig.tx.signatures := by
  refine ⟨?_, ?_, ?_⟩
  · simp [Psp34Nft.check_multisig, hmem, Nat.not_lt.mpr hcnt, hexp]
  · simp [Psp34Nft.sign_multisigtx, hmem, hfn, hexp]
  · simp [Psp34Nft.check_signatures, hmem, hexp]

/-- Concrete state at exact staleness expiry: signatory 5, threshold 1, one
collected signature, time limit 600000, transaction ordered at time 0,
inspected at time 600000. -/
def wit9State : Psp34Nft :=
  { (default : Psp34Nft) with
    multisig :=
      { tx :=
          { orderer := DEFAULT_ACCOUNT
            signatures := [{ signer := 5, time := 0 }]
            function := UNPAUSE
            time := 0
            ready := false }
        signatories := [5]
        threshold := 1
        timelimit := 600000 } }

/-- Witness for C9 at the concrete exact-expiry state. -/
theorem staleness_boundary_inconsistent_witness :
    wit9State.check_multisig 5 600000 "UNPAUSE" = Except.error Err.TransactionStale ∧
    wit9State.sign_multisigtx 5 600000 "UNPAUSE" = (Except.error Err.TransactionStale, wit9State) ∧
    wit9State.check_signatures 5 600000 = Except.ok wit9State.multisig.tx.signatures :=
  staleness_boundary_inconsistent_at_exact_expiry wit9State 5 600000 "UNPAUSE"
    (by decide) (by decide) (by decide) (by decide)

/-- C10: `self_mint(price)` fails whenever the caller-supplied `price` is
strictly below the stored `nft_psp22price`, accepts any price at or above it
(given the cap, overflow, pause and socket conditions are met), and on
success sends the caller-supplied `price` — not the stored price — through
the socket to the token contract. -/
theorem self_mint_price_gate :
    (∀ (s : Psp34Nft) (c p : Nat) (b : Bool), (s.self_mint c p b).1 = Except.ok () →
      s.access.nft_psp22price ≤ p ∧
      (s.self_mint c p b).2.socketTransfers = s.socketTransfers ++ [(c, p)]) ∧
    (∀ (s : Psp34Nft) (c p : Nat) (b : Bool), p < s.access.nft_psp22price →
      (s.self_mint c p b).1 ≠ Except.ok ()) ∧
    (∀ (s : Psp34Nft) (c p : Nat), s.paused = false → s.last_token_id + 1 < U64_LIMIT →
      s.last_token_id + 1 < s.access.cap → s.access.nft_psp22price ≤ p →
      assocGet s.psp34_owners (NftId.U64 (s.last_token_id + 1)) = none →
      (s.self_mint c p true).1 = Except.ok ()) := by
  have key : ∀ (s : Psp34Nft) (c p : Nat) (b : Bool), (s.self_mint c p b).1 = Except.ok () →
      s.access.nft_psp22price ≤ p ∧
      (s.self_mint c p b).2.socketTransfers = s.socketTransfers ++ [(c, p)] := by
    intro s c p b h
    by_cases h1 : s.paused
    · simp [Psp34Nft.self_mint, h1] at h
    by_cases h2 : U64_LIMIT ≤ s.last_token_id + 1
    · simp [Psp34Nft.self_mint, h1, h2] at h
    by_cases h3 : s.access.cap ≤ s.last_token_id + 1
    · simp [Psp34Nft.self_mint, h1, h2, h3] at h
    by_cases h4 : p < s.access.nft_psp22price
    · simp [Psp34Nft.self_mint, h1, h2, h3, h4] at h
    by_cases h5 : b = false
    · simp [Psp34Nft.self_mint, h1, h2, h3, h4, h5] at h
    rcases h6 : assocGet s.psp34_owners (NftId.U64 (s.last_token_id + 1)) with _ | v
    · refine ⟨Nat.not_lt.mp h4, ?_⟩
      simp [Psp34Nft.self_mint, h1, h2, h3, h4, h5, h6, Psp34Nft.setCollections]
    · simp [Psp34Nft.self_mint, h1, h2, h3, h4, h5, h6] at h
  refine ⟨key, ?_, ?_⟩
  · intro s c p b hp h
    exact absurd (key s c p b h).1 (Nat.not_le.mpr hp)
  · intro s c p hpa hov hcap hpr hfresh
    simp [Psp34Nft.self_mint, hpa, Nat.not_le.mpr hov, Nat.not_le.mpr hcap,
      Nat.not_lt.mpr hpr, hfresh]

/-- Fresh contract state with cap 5 and stored self-mint price 3. -/
def wit10State : Psp34Nft :=
  { (default : Psp34Nft) with
    access := { cap := 5, nft_psp22price := 3, collections := [] } }

/-- Witness for C10: minter 9 self-mints at price 4 (above the stored 3) and
exactly 4 goes through the socket; price 2 is refused. -/
theorem self_mint_price_gate_witness :
    (wit10State.self_mint 9 4 true).1 = Except.ok () ∧
    wit10State.access.nft_psp22price ≤ 4 ∧
    (wit10State.self_mint 9 4 true).2.socketTransfers = wit10State.socketTransfers ++ [(9, 4)] ∧
    (wit10State.self_mint 9 2 true).1 ≠ Except.ok () :=
  have hok : (wit10State.self_mint 9 4 true).1 = Except.ok () :=
    self_mint_price_gate.2.2 wit10State 9 4 (by decide) (by decide) (by decide)
      (by decide) (by decide)
  ⟨hok, (self_mint_price_gate.1 wit10State 9 4 true hok).1,
    (self_mint_price_gate.1 wit10State 9 4 true hok).2,
    self_mint_price_gate.2.1 wit10State 9 2 true (by decide)⟩

/-- C1: `check_multisig` permits a privileged operation if and only if the
caller is a current signatory, the collected signatures reach the threshold,
the elapsed time since the order is within the time limit, and the named
function resolves to the in-flight transaction's function; and whenever the
check fails, each of the seven guarded operations (`add_signatory`,
`remove_signatory`, `change_threshold`, `change_multisigtxtimelimit`,
`unpause`, `transfer_ownership`, `update_contract`) returns that same error
with the contract state untouched. -/
theorem check_multisig_gate (s : Psp34Nft) (caller : AccountID) (now : Nat) (f : String) :
    (s.check_multisig caller now f = Except.ok () ↔
      (caller ∈ s.multisig.signatories ∧
       s.multisig.threshold ≤ s.multisig.tx.signatures.length ∧
       now - s.multisig.tx.time < s.multisig.timelimit ∧
       Psp34Nft.parseFunction f = some s.multisig.tx.function)) ∧
    (∀ e, s.check_multisig caller now f = Except.error e →
      (∀ a, s.add_signatory caller now a f = (Except.error e, s)) ∧
      (∀ a, s.remove_signatory caller now a f = (Except.error e, s)) ∧
      (∀ t, s.change_threshold caller now t f = (Except.error e, s)) ∧
      (∀ t, s.change_multisigtxtimelimit caller now t f = (Except.error e, s)) ∧
      s.unpause caller now f = (Except.error e, s) ∧
      (∀ a, s.transfer_ownership caller now a f = (Except.error e, s)) ∧
      (∀ h, s.update_contract caller now h f = (Except.error e, s))) := by
  constructor
  · constructor
    · intro h
      simp only [Psp34Nft.check_multisig] at h
      split_ifs at h with h1 h2 h3
      rcases hp : Psp34Nft.parseFunction f with _ | c
      · rw [hp] at h
        dsimp only at h
        exact absurd h (by simp)
      · rw [hp] at h
        dsimp only at h
        split_ifs at h with h4
        exact ⟨h1, Nat.not_lt.mp h2, Nat.not_le.mp h3, by rw [not_not.mp h4]⟩
    · rintro ⟨hmem, hcnt, htime, hfn⟩
      simp [Psp34Nft.check_multisig, hmem, Nat.not_lt.mpr hcnt, Nat.not_le.mpr htime, hfn]
  · intro e he
    refine ⟨?_, ?_, ?_, ?_, ?_, ?_, ?_⟩ <;>
      intros <;>
      simp [Psp34Nft.add_signatory, Psp34Nft.remove_signatory, Psp34Nft.change_threshold,
        Psp34Nft.change_multisigtxtimelimit, Psp34Nft.unpause, Psp34Nft.transfer_ownership,
        Psp34Nft.update_contract, he]

/-- Witness for C1: in the default (empty-signatory) state caller 5 fails the
consumption check with CallerNotSignatory, and the guarded operations all
return that error unchanged. -/
theorem check_multisig_gate_witness :
    (default : Psp34Nft).add_signatory 5 0 7 "UNPAUSE" =
      (Except.error Err.CallerNotSignatory, default) ∧
    (default : Psp34Nft).unpause 5 0 "UNPAUSE" =
      (Except.error Err.CallerNotSignatory, default) :=
  have h := (check_multisig_gate (default) 5 0 "UNPAUSE").2 Err.CallerNotSignatory (by decide)
  ⟨h.1 7, h.2.2.2.2.1⟩

/-- C5: spec-modelled vesting exactness — each period of the schedule pays
`share / vest` except the last, which pays `share / vest + share % vest`, so
the cumulative amount over the `vest` successful `distribute_tokens` calls
is exactly `share`; instantiated at the spec's example `share = 1000000000`,
`vest = 36` (35 payments of 27777777 and a final payment of 27777805). -/
theorem vesting_exactness :
    (∀ share vest cliff : Nat, 1 ≤ vest → schedulePaid share vest cliff = share) ∧
    (∀ p : Nat, 6 ≤ p → p < 41 → vestPayout 1000000000 36 6 p = 27777777) ∧
    vestPayout 1000000000 36 6 41 = 27777805 ∧
    schedulePaid 1000000000 36 6 = 1000000000 := by
  have main : ∀ share vest cliff : Nat, 1 ≤ vest → schedulePaid share vest cliff = share := by
    intro share vest cliff h
    obtain ⟨m, rfl⟩ : ∃ m, vest = m + 1 := ⟨vest - 1, (Nat.succ_pred_eq_of_pos h).symm⟩
    unfold schedulePaid
    rw [Finset.sum_range_succ]
    have hrest : ∀ i ∈ Finset.range m,
        vestPayout share (m + 1) cliff (cliff + i) = share / (m + 1) := by
      intro i hi
      have him := Finset.mem_range.mp hi
      unfold vestPayout
      rw [if_neg (by omega)]
    have hlast : vestPayout share (m + 1) cliff (cliff + m) = share / (m + 1) + share % (m + 1) := by
      unfold vestPayout
      rw [if_pos (by omega)]
    rw [Finset.sum_congr rfl hrest, Finset.sum_const, Finset.card_range, hlast, smul_eq_mul]
    have hdm := Nat.div_add_mod share (m + 1)
    calc m * (share / (m + 1)) + (share / (m + 1) + share % (m + 1))
        = (m + 1) * (share / (m + 1)) + share % (m + 1) := by ring
      _ = share := hdm
  refine ⟨main, ?_, by decide, ?_⟩
  · intro p h6 h41
    unfold vestPayout
    rw [if_neg (by omega)]
  · exact main 1000000000 36 6 (by decide)

/-- Witness for C5 at the spec's example numbers. -/
theorem vesting_exactness_witness :
    schedulePaid 1000000000 36 6 = 1000000000 ∧
    vestPayout 1000000000 36 6 20 = 27777777 :=
  ⟨vesting_exactness.1 1000000000 36 6 (by decide),
    vesting_exactness.2.1 20 (by decide) (by decide)⟩

/-- C6: spec-modelled transfer coupling — a successful transfer whose sender
is the distinguished owner/treasury increases `total_supply()` by the amount;
one whose recipient is the owner decreases `total_supply()` by the amount and
credits the REWARDS pool sub-balance with it; a transfer between two
non-owner addresses changes neither. -/
theorem transfer_coupling :
    (∀ (l : Ledger) (s r x : Nat) (l2 : Ledger), l.transfer s r x = Except.ok l2 →
      s = l.owner →
      l2.totalSupply = l.totalSupply + x ∧ l2.rewardsPool = l.rewardsPool) ∧
    (∀ (l : Ledger) (s r x : Nat) (l2 : Ledger), l.transfer s r x = Except.ok l2 →
      s ≠ l.owner → r = l.owner → x ≤ l.totalSupply →
      l2.totalSupply = l.totalSupply - x ∧ l.totalSupply = l2.totalSupply + x ∧
      l2.rewardsPool = l.rewardsPool + x) ∧
    (∀ (l : Ledger) (s r x : Nat) (l2 : Ledger), l.transfer s r x = Except.ok l2 →
      s ≠ l.owner → r ≠ l.owner →
      l2.totalSupply = l.totalSupply ∧ l2.rewardsPool = l.rewardsPool) := by
  refine ⟨?_, ?_, ?_⟩
  · intro l s r x l2 h hs
    subst hs
    by_cases h1 : l.owner = ZERO_ADDRESS
    · simp [Ledger.transfer, h1] at h
    by_cases h2 : r = ZERO_ADDRESS
    · simp [Ledger.transfer, h1, h2] at h
    by_cases h3 : l.balanceOf l.owner < x
    · simp [Ledger.transfer, h1, h2, h3] at h
    by_cases h4 : l.supplyCap < l.totalSupply + x
    · simp [Ledger.transfer, h1, h2, h3, h4] at h
    · simp [Ledger.transfer, h1, h2, h3, h4] at h
      subst h
      exact ⟨rfl, rfl⟩
  · intro l s r x l2 h hs hr hx
    subst hr
    by_cases h1 : s = ZERO_ADDRESS
    · simp [Ledger.transfer, h1] at h
    by_cases h2 : l.owner = ZERO_ADDRESS
    · simp [Ledger.transfer, h1, h2] at h
    by_cases h3 : l.balanceOf s < x
    · simp [Ledger.transfer, h1, h2, h3] at h
    simp [Ledger.transfer, h1, h2, h3, hs] at h
    subst h
    refine ⟨rfl, ?_, rfl⟩
    dsimp only
    omega
  · intro l s r x l2 h hs hr
    by_cases h1 : s = ZERO_ADDRESS
    · simp [Ledger.transfer, h1] at h
    by_cases h2 : r = ZERO_ADDRESS
    · simp [Ledger.transfer, h1, h2] at h
    by_cases h3 : l.balanceOf s < x
    · simp [Ledger.transfer, h1, h2, h3] at h
    simp [Ledger.transfer, h1, h2, h3, hs, hr] at h
    subst h
    exact ⟨rfl, rfl⟩

/-- Concrete ledger for exercising the transfer coupling: owner 1 holds the
treasury reserve, address 2 holds 50 circulating tokens. -/
def witLedger : Ledger :=
  { balances := [(1, 100), (2, 50)], totalSupply := 50, rewardsPool := 10,
    owner := 1, supplyCap := 1000 }

/-- Emission result: owner 1 sends 20 tokens to address 2. -/
def witLedgerEmit : Ledger := (witLedger.transfer 1 2 20).toOption.getD default

/-- Retirement result: address 2 sends 20 tokens back to owner 1. -/
def witLedgerRet : Ledger := (witLedger.transfer 2 1 20).toOption.getD default

/-- Witness for C6 on the concrete ledger. -/
theorem transfer_coupling_witness :
    witLedgerEmit.totalSupply = witLedger.totalSupply + 20 ∧
    witLedgerRet.totalSupply = witLedger.totalSupply - 20 ∧
    witLedgerRet.rewardsPool = witLedger.rewardsPool + 20 :=
  ⟨(transfer_coupling.1 witLedger 1 2 20 witLedgerEmit (by decide) (by decide)).1,
    (transfer_coupling.2.1 witLedger 2 1 20 witLedgerRet (by decide) (by decide)
      (by decide) (by decide)).1,
    (transfer_coupling.2.1 witLedger 2 1 20 witLedgerRet (by decide) (by decide)
      (by decide) (by decide)).2.2⟩

/-- A message whose raw run is not `Ok` leaves the observable state unchanged
(ink! 4 revert semantics encoded in `applyOp`). -/
theorem applyOp_of_err {s : Psp34Nft} {op : Op} (h : (runOp s op).1 ≠ Except.ok ()) :
    applyOp s op = s := by
  unfold applyOp
  rcases hro : runOp s op with ⟨r, u⟩
  cases r with
  | ok v => rw [hro] at h; simp at h
  | error e => simp

/-- A message whose raw run succeeds commits its raw post-state. -/
theorem applyOp_of_ok {s : Psp34Nft} {op : Op} {t : Psp34Nft}
    (h : runOp s op = (Except.ok (), t)) : applyOp s op = t := by
  unfold applyOp
  rw [h]

/-- Success shape of `order_multisigtx`: the signatory set, threshold, token
counter and cap are untouched. -/
theorem ok_order {s : Psp34Nft} {c n : Nat} {f : String} {t : Psp34Nft}
    (h : s.order_multisigtx c n f = (Except.ok (), t)) :
    t.multisig.signatories = s.multisig.signatories ∧
    t.multisig.threshold = s.multisig.threshold ∧
    t.last_token_id = s.last_token_id ∧ t.access.cap = s.access.cap := by
  unfold Psp34Nft.order_multisigtx at h
  rcases hp : Psp34Nft.parseFunction f with _ | c2 <;> rw [hp] at h <;>
    split_ifs at h <;> simp_all <;> subst h <;> simp

/-- Success shape of `sign_multisigtx`. -/
theorem ok_sign {s : Psp34Nft} {c n : Nat} {f : String} {t : Psp34Nft}
    (h : s.sign_multisigtx c n f = (Except.ok (), t)) :
    t.multisig.signatories = s.multisig.signatories ∧
    t.multisig.threshold = s.multisig.threshold ∧
    t.last_token_id = s.last_token_id ∧ t.access.cap = s.access.cap := by
  unfold Psp34Nft.sign_multisigtx at h
  rcases hp : Psp34Nft.parseFunction f with _ | c2 <;> rw [hp] at h <;> dsimp only at h <;>
    split_ifs at h
  all_goals simp only [Prod.mk.injEq] at h
  all_goals
    first
      | exact Except.noConfusion h.1
      | (obtain ⟨-, ht⟩ := h
         subst ht
         exact ⟨rfl, rfl, rfl, rfl⟩)

/-- Success shape of `add_signatory`: the new signatory was not already
registered and is appended. -/
theorem ok_addSig {s : Psp34Nft} {c n a : Nat} {f : String} {t : Psp34Nft}
    (h : s.add_signatory c n a f = (Except.ok (), t)) :
    t.multisig.threshold = s.multisig.threshold ∧
    t.multisig.signatories = s.multisig.signatories ++ [a] ∧
    a ∉ s.multisig.signatories ∧
    t.last_token_id = s.last_token_id ∧ t.access.cap = s.access.cap := by
  unfold Psp34Nft.add_signatory at h
  rcases hc : s.check_multisig c n f with e | u <;> rw [hc] at h <;> dsimp only at h
  · simp at h
  · split_ifs at h with h1 h2
    · simp at h
    · simp at h
    · simp only [Prod.mk.injEq] at h
      obtain ⟨-, ht⟩ := h
      subst ht
      exact ⟨rfl, rfl, h2, rfl, rfl⟩

/-- Success shape of `remove_signatory`: the removed signatory was registered,
the signatory list strictly exceeded `threshold + 1`, and `retain` filters the
signatory out. -/
theorem ok_removeSig {s : Psp34Nft} {c n a : Nat} {f : String} {t : Psp34Nft}
    (h : s.remove_signatory c n a f = (Except.ok (), t)) :
    t.multisig.threshold = s.multisig.threshold ∧
    t.multisig.signatories = s.multisig.signatories.filter (fun x => x ≠ a) ∧
    a ∈ s.multisig.signatories ∧
    s.multisig.threshold + 1 < s.multisig.signatories.length ∧
    t.last_token_id = s.last_token_id ∧ t.access.cap = s.access.cap := by
  unfold Psp34Nft.remove_signatory at h
  rcases hc : s.check_multisig c n f with e | u <;> rw [hc] at h <;> dsimp only at h
  · simp at h
  · split_ifs at h with h1 h2 h3 h4 <;> simp only [Prod.mk.injEq] at h
    all_goals
      first
        | exact Except.noConfusion h.1
        | (obtain ⟨-, ht⟩ := h
           subst ht
           refine ⟨rfl, ?_, ?_, ?_, rfl, rfl⟩
           · simp [Ne, decide_not]
           · assumption
           · omega)

/-- Success shape of `change_threshold`: the new threshold respects the
absolute floor and the `threshold + 1` signatory requirement. -/
theorem ok_setThreshold {s : Psp34Nft} {c n th : Nat} {f : String} {t : Psp34Nft}
    (h : s.change_threshold c n th f = (Except.ok (), t)) :
    t.multisig.threshold = th ∧
    t.multisig.signatories = s.multisig.signatories ∧
    THRESHOLD_MIN ≤ th ∧ th + 1 ≤ s.multisig.signatories.length ∧
    t.last_token_id = s.last_token_id ∧ t.access.cap = s.access.cap := by
  unfold Psp34Nft.change_threshold at h
  rcases hc : s.check_multisig c n f with e | u <;> rw [hc] at h <;> dsimp only at h
  · simp at h
  · split_ifs at h with h1 h2 h3
    · simp at h
    · simp at h
    · simp at h
    · simp only [Prod.mk.injEq] at h
      obtain ⟨-, ht⟩ := h
      subst ht
      exact ⟨rfl, rfl, by omega, by omega, rfl, rfl⟩

/-- Success shape of `change_multisigtxtimelimit`. -/
theorem ok_setTimelimit {s : Psp34Nft} {c n tl : Nat} {f : String} {t : Psp34Nft}
    (h : s.change_multisigtxtimelimit c n tl f = (Except.ok (), t)) :
    t.multisig.signatories = s.multisig.signatories ∧
    t.multisig.threshold = s.multisig.threshold ∧
    t.last_token_id = s.last_token_id ∧ t.access.cap = s.access.cap := by
  unfold Psp34Nft.change_multisigtxtimelimit at h
  rcases hc : s.check_multisig c n f with e | u <;> rw [hc] at h <;> dsimp only at h
  · simp at h
  · split_ifs at h with h1
    · simp at h
    · simp only [Prod.mk.injEq] at h
      obtain ⟨-, ht⟩ := h
      subst ht
      exact ⟨rfl, rfl, rfl, rfl⟩

/-- Success shape of `pause`. -/
theorem ok_pause {s : Psp34Nft} {c : Nat} {t : Psp34Nft}
    (h : s.pause c = (Except.ok (), t)) :
    t.multisig.signatories = s.multisig.signatories ∧
    t.multisig.threshold = s.multisig.threshold ∧
    t.last_token_id = s.last_token_id ∧ t.access.cap = s.access.cap := by
  unfold Psp34Nft.pause at h
  split_ifs at h <;> simp_all <;> subst h <;> simp

/-- Success shape of `unpause`. -/
theorem ok_unpause {s : Psp34Nft} {c n : Nat} {f : String} {t : Psp34Nft}
    (h : s.unpause c n f = (Except.ok (), t)) :
    t.multisig.signatories = s.multisig.signatories ∧
    t.multisig.threshold = s.multisig.threshold ∧
    t.last_token_id = s.last_token_id ∧ t.access.cap = s.access.cap := by
  unfold Psp34Nft.unpause at h
  rcases hc : s.check_multisig c n f with e | u <;> rw [hc] at h <;> dsimp only at h
  · simp at h
  · split_ifs at h with h1
    · simp only [Prod.mk.injEq] at h
      obtain ⟨-, ht⟩ := h
      subst ht
      exact ⟨rfl, rfl, rfl, rfl⟩
    · simp at h

/-- Success shape of `transfer_ownership`. -/
theorem ok_transferOwn {s : Psp34Nft} {c n a : Nat} {f : String} {t : Psp34Nft}
    (h : s.transfer_ownership c n a f = (Except.ok (), t)) :
    t.multisig.signatories = s.multisig.signatories ∧
    t.multisig.threshold = s.multisig.threshold ∧
    t.last_token_id = s.last_token_id ∧ t.access.cap = s.access.cap := by
  unfold Psp34Nft.transfer_ownership at h
  rcases hc : s.check_multisig c n f with e | u <;> rw [hc] at h <;> dsimp only at h
  · simp at h
  · split_ifs at h with h1
    · simp at h
    · simp only [Prod.mk.injEq] at h
      obtain ⟨-, ht⟩ := h
      subst ht
      exact ⟨rfl, rfl, rfl, rfl⟩

/-- Success shape of `update_contract`: the embedded storage is unchanged. -/
theorem ok_updateCode {s : Psp34Nft} {c n hash : Nat} {f : String} {t : Psp34Nft}
    (h : s.update_contract c n hash f = (Except.ok (), t)) : t = s := by
  unfold Psp34Nft.update_contract at h
  rcases hc : s.check_multisig c n f with e | u <;> rw [hc] at h <;> dsimp only at h
  · simp at h
  · simp only [Prod.mk.injEq] at h
    exact h.2.symm

/-- Success shape of `mint`: the token counter advances by exactly one and the
incremented counter is strictly below the cap. -/
theorem ok_mint {s : Psp34Nft} {c : Nat} {t : Psp34Nft}
    (h : s.mint c = (Except.ok (), t)) :
    t.multisig = s.multisig ∧ t.last_token_id = s.last_token_id + 1 ∧
    t.access.cap = s.access.cap ∧ s.last_token_id + 1 < s.access.cap := by
  simp only [Psp34Nft.mint] at h
  split_ifs at h with h1 h2 h3 h4
  all_goals
    first
      | exact Except.noConfusion (congrArg Prod.fst h)
      | (rcases hg : assocGet s.psp34_owners (NftId.U64 (s.last_token_id + 1)) with _ | v <;>
           rw [hg] at h <;> dsimp only at h <;> simp only [Prod.mk.injEq] at h
         · obtain ⟨-, ht⟩ := h
           subst ht
           try dsimp only at h1 h2 h3 h4 ⊢
           exact ⟨rfl, rfl, rfl, by omega⟩
         · exact Except.noConfusion h.1)

/-- Success shape of `mint_to`. -/
theorem ok_mintTo {s : Psp34Nft} {c r : Nat} {t : Psp34Nft}
    (h : s.mint_to c r = (Except.ok (), t)) :
    t.multisig = s.multisig ∧ t.last_token_id = s.last_token_id + 1 ∧
    t.access.cap = s.access.cap ∧ s.last_token_id + 1 < s.access.cap := by
  simp only [Psp34Nft.mint_to] at h
  split_ifs at h with h1 h2 h3 h4
  all_goals
    first
      | exact Except.noConfusion (congrArg Prod.fst h)
      | (rcases hg : assocGet s.psp34_owners (NftId.U64 (s.last_token_id + 1)) with _ | v <;>
           rw [hg] at h <;> dsimp only at h <;> simp only [Prod.mk.injEq] at h
         · obtain ⟨-, ht⟩ := h
           subst ht
           try dsimp only at h1 h2 h3 h4 ⊢
           exact ⟨rfl, rfl, rfl, by omega⟩
         · exact Except.noConfusion h.1)

/-- Success shape of `self_mint`. -/
theorem ok_selfMint {s : Psp34Nft} {c p : Nat} {b : Bool} {t : Psp34Nft}
    (h : s.self_mint c p b = (Except.ok (), t)) :
    t.multisig = s.multisig ∧ t.last_token_id = s.last_token_id + 1 ∧
    t.access.cap = s.access.cap ∧ s.last_token_id + 1 < s.access.cap := by
  simp only [Psp34Nft.self_mint] at h
  split_ifs at h with h1 h2 h3 h4 h5
  all_goals
    first
      | exact Except.noConfusion (congrArg Prod.fst h)
      | (rcases hg : assocGet s.psp34_owners (NftId.U64 (s.last_token_id + 1)) with _ | v <;>
           rw [hg] at h <;> dsimp only at h <;> simp only [Prod.mk.injEq] at h
         · obtain ⟨-, ht⟩ := h
           subst ht
           try dsimp only at h1 h2 h3 h4 h5 ⊢
           exact ⟨rfl, rfl, rfl, by omega⟩
         · exact Except.noConfusion h.1)

/-- The attribute-name helper does not touch the multisig data, the token
counter, or the access configuration. -/
theorem add_attribute_name_frames {s : Psp34Nft} {a : String} {t : Psp34Nft}
    (h : s.add_attribute_name a = Except.ok t) :
    t.multisig = s.multisig ∧ t.last_token_id = s.last_token_id ∧ t.access = s.access := by
  unfold Psp34Nft.add_attribute_name at h
  split_ifs at h <;> simp only [Except.ok.injEq] at h <;> subst h <;> exact ⟨rfl, rfl, rfl⟩

/-- The `set_multiple_attributes` metadata loop does not touch the multisig
data, the token counter, or the access configuration. -/
theorem setAttrsLoop_frames {id : NftId} :
    ∀ (md : List (String × String)) (s t : Psp34Nft), Psp34Nft.setAttrsLoop id s md = Except.ok t →
    t.multisig = s.multisig ∧ t.last_token_id = s.last_token_id ∧ t.access = s.access := by
  intro md
  induction md with
  | nil =>
    intro s t h
    simp only [Psp34Nft.setAttrsLoop, Except.ok.injEq] at h
    subst h
    exact ⟨rfl, rfl, rfl⟩
  | cons kv rest ih =>
    intro s t h
    obtain ⟨k, v⟩ := kv
    simp only [Psp34Nft.setAttrsLoop] at h
    rcases ha : s.add_attribute_name k with e | s1 <;> rw [ha] at h <;> dsimp only at h
    · exact Except.noConfusion h
    · obtain ⟨hm, hl, hacc⟩ := add_attribute_name_frames ha
      obtain ⟨hm2, hl2, hacc2⟩ := ih _ _ h
      exact ⟨hm2.trans hm, hl2.trans hl, hacc2.trans hacc⟩

/-- Success shape of `mint_with_attributes`. -/
theorem ok_mintAttrs {s : Psp34Nft} {c : Nat} {md : List (String × String)} {t : Psp34Nft}
    (h : s.mint_with_attributes c md = (Except.ok (), t)) :
    t.multisig = s.multisig ∧ t.last_token_id = s.last_token_id + 1 ∧
    t.access.cap = s.access.cap ∧ s.last_token_id + 1 < s.access.cap := by
  simp only [Psp34Nft.mint_with_attributes] at h
  split_ifs at h with h1 h2 h3 h4
  all_goals
    first
      | exact Except.noConfusion (congrArg Prod.fst h)
      | (rcases hg : assocGet s.psp34_owners (NftId.U64 (s.last_token_id + 1)) with _ | v
         rotate_left
         · rw [hg] at h; dsimp only at h; exact Except.noConfusion (congrArg Prod.fst h)
         · rw [hg] at h
           dsimp only at h
           rcases hsa : Psp34Nft.set_multiple_attributes _ c (NftId.U64 (s.last_token_id + 1)) md
             with e | s3
           · rw [hsa] at h; dsimp only at h; exact Except.noConfusion (congrArg Prod.fst h)
           · rw [hsa] at h
             dsimp only at h
             simp only [Prod.mk.injEq] at h
             obtain ⟨-, ht⟩ := h
             subst ht
             have hfr : s3.multisig = s.multisig ∧ s3.last_token_id = s.last_token_id + 1 ∧
                 s3.access.cap = s.access.cap := by
               unfold Psp34Nft.set_multiple_attributes at hsa
               split_ifs at hsa
               obtain ⟨hm, hl, hacc⟩ := setAttrsLoop_frames _ _ _ hsa
               exact ⟨hm, hl, by rw [hacc]⟩
             try dsimp only at h1 h2 h3 h4 ⊢
             refine ⟨?_, ?_, ?_, by omega⟩ <;>
               simp [Psp34Nft.setCollections, hfr.1, hfr.2.1, hfr.2.2])

/-- Filtering one present element out of a duplicate-free list shortens it by
exactly one. -/
theorem length_filter_ne {a : AccountID} :
    ∀ l : List AccountID, l.Nodup → a ∈ l →
      (l.filter (fun x => x ≠ a)).length + 1 = l.length := by
  intro l
  induction l with
  | nil => intro _ ha; cases ha
  | cons b tl ih =>
    intro hnd ha
    have hnd' := List.nodup_cons.mp hnd
    rcases List.mem_cons.mp ha with hb | ha2
    · subst hb
      have hself : tl.filter (fun x => x ≠ a) = tl := by
        rw [List.filter_eq_self]
        intro x hx
        simp only [ne_eq, decide_not, Bool.not_eq_true', decide_eq_false_iff_not]
        exact fun he => hnd'.1 (he ▸ hx)
      simp [List.filter_cons, hself]
      intro x hx he
      exact hnd'.1 (he ▸ hx)
    · have hne : b ≠ a := fun he => hnd'.1 (by rw [he]; exact ha2)
      have hih := ih hnd'.2 ha2
      simp only [ne_eq, decide_not] at hih
      simp [List.filter_cons, hne]
      omega

/-- The standing multisig invariant: the signatory list is duplicate-free and
holds at least `threshold + 1` members. -/
def MsInv (s : Psp34Nft) : Prop :=
  s.multisig.signatories.Nodup ∧
  s.multisig.threshold + 1 ≤ s.multisig.signatories.length

/-- Every message preserves the standing multisig invariant. -/
theorem applyOp_msinv (s : Psp34Nft) (op : Op) (hi : MsInv s) : MsInv (applyOp s op) := by
  by_cases hok : (runOp s op).1 = Except.ok ()
  case neg => rw [applyOp_of_err hok]; exact hi
  case pos =>
  obtain ⟨hind, hilen⟩ := hi
  have hi : MsInv s := ⟨hind, hilen⟩
  have hro : runOp s op = (Except.ok (), (runOp s op).2) := Prod.ext hok rfl
  rw [applyOp_of_ok hro]
  cases op with
  | order c n f =>
    obtain ⟨e1, e2, -, -⟩ := ok_order hro
    exact ⟨e1 ▸ hi.1, by rw [e1, e2]; exact hi.2⟩
  | sign c n f =>
    obtain ⟨e1, e2, -, -⟩ := ok_sign hro
    exact ⟨e1 ▸ hi.1, by rw [e1, e2]; exact hi.2⟩
  | addSig c n a f =>
    obtain ⟨ht, hs, hna, -, -⟩ := ok_addSig hro
    constructor
    · rw [hs]
      simp [List.nodup_append, hi.1, hna]
    · rw [ht, hs]
      simp only [List.length_append, List.length_singleton]
      omega
  | removeSig c n a f =>
    obtain ⟨ht, hs, hmem, hlen, -, -⟩ := ok_removeSig hro
    have hlf2 : (s.multisig.signatories.filter (fun x => x ≠ a)).length + 1 =
        s.multisig.signatories.length := length_filter_ne s.multisig.signatories hind hmem
    refine ⟨?_, ?_⟩
    · rw [hs]
      exact hind.filter _
    · calc (runOp s (Op.removeSig c n a f)).2.multisig.threshold + 1
          = s.multisig.threshold + 1 := by rw [ht]
        _ ≤ (s.multisig.signatories.filter (fun x => x ≠ a)).length := by omega
        _ = (runOp s (Op.removeSig c n a f)).2.multisig.signatories.length :=
          (congrArg List.length hs).symm
  | setThreshold c n th f =>
    obtain ⟨ht, hs, -, hlen, -, -⟩ := ok_setThreshold hro
    constructor
    · rw [hs]; exact hi.1
    · rw [ht, hs]; exact hlen
  | setTimelimit c n tl f =>
    obtain ⟨e1, e2, -, -⟩ := ok_setTimelimit hro
    exact ⟨e1 ▸ hi.1, by rw [e1, e2]; exact hi.2⟩
  | pauseOp c =>
    obtain ⟨e1, e2, -, -⟩ := ok_pause hro
    exact ⟨e1 ▸ hi.1, by rw [e1, e2]; exact hi.2⟩
  | unpauseOp c n f =>
    obtain ⟨e1, e2, -, -⟩ := ok_unpause hro
    exact ⟨e1 ▸ hi.1, by rw [e1, e2]; exact hi.2⟩
  | transferOwn c n a f =>
    obtain ⟨e1, e2, -, -⟩ := ok_transferOwn hro
    exact ⟨e1 ▸ hi.1, by rw [e1, e2]; exact hi.2⟩
  | updateCode c n hash f =>
    have he : (runOp s (Op.updateCode c n hash f)).2 = s :=
      @ok_updateCode s c n hash f ((runOp s (Op.updateCode c n hash f)).2) hro
    rw [he]
    exact hi
  | mintOp c =>
    obtain ⟨hm, -, -, -⟩ := ok_mint hro
    constructor
    · show ((runOp s (Op.mintOp c)).2.multisig).signatories.Nodup
      rw [hm]; exact hi.1
    · show _ + 1 ≤ ((runOp s (Op.mintOp c)).2.multisig).signatories.length
      rw [hm]; exact hi.2
  | mintToOp c r =>
    obtain ⟨hm, -, -, -⟩ := ok_mintTo hro
    exact ⟨by rw [show (runOp s (Op.mintToOp c r)).2.multisig = s.multisig from hm]; exact hi.1,
      by rw [show (runOp s (Op.mintToOp c r)).2.multisig = s.multisig from hm]; exact hi.2⟩
  | selfMintOp c p b =>
    obtain ⟨hm, -, -, -⟩ := ok_selfMint hro
    exact ⟨by rw [show (runOp s (Op.selfMintOp c p b)).2.multisig = s.multisig from hm]; exact hi.1,
      by rw [show (runOp s (Op.selfMintOp c p b)).2.multisig = s.multisig from hm]; exact hi.2⟩
  | mintAttrsOp c md =>
    obtain ⟨hm, -, -, -⟩ := ok_mintAttrs hro
    exact ⟨by rw [show (runOp s (Op.mintAttrsOp c md)).2.multisig = s.multisig from hm]; exact hi.1,
      by rw [show (runOp s (Op.mintAttrsOp c md)).2.multisig = s.multisig from hm]; exact hi.2⟩

/-- Every message sequence preserves the standing multisig invariant. -/
theorem run_msinv (ops : List Op) : ∀ s : Psp34Nft, MsInv s → MsInv (run s ops) := by
  induction ops with
  | nil => intro s hi; exact hi
  | cons op t ih =>
    intro s hi
    exact ih (applyOp s op) (applyOp_msinv s op hi)

/-- One message step: the cap is constant, the token counter advances exactly
on successful mints, and the counter stays within `cap - 1`. -/
theorem applyOp_mint_facts (s : Psp34Nft) (op : Op) :
    (applyOp s op).access.cap = s.access.cap ∧
    (applyOp s op).last_token_id =
      s.last_token_id + (if isMintOp op ∧ (runOp s op).1 = Except.ok () then 1 else 0) ∧
    (s.last_token_id ≤ s.access.cap - 1 →
      (applyOp s op).last_token_id ≤ s.access.cap - 1) := by
  by_cases hok : (runOp s op).1 = Except.ok ()
  case neg =>
    rw [applyOp_of_err hok]
    refine ⟨rfl, ?_, fun h => h⟩
    rw [if_neg (fun hc => hok hc.2)]
    omega
  case pos =>
    have hro : runOp s op = (Except.ok (), (runOp s op).2) := Prod.ext hok rfl
    rw [applyOp_of_ok hro]
    cases op with
    | mintOp c =>
      obtain ⟨-, hl, hcap, hlt⟩ := ok_mint hro
      rw [if_pos ⟨rfl, hok⟩]
      exact ⟨hcap, hl, fun h => by omega⟩
    | mintToOp c r =>
      obtain ⟨-, hl, hcap, hlt⟩ := ok_mintTo hro
      rw [if_pos ⟨rfl, hok⟩]
      exact ⟨hcap, hl, fun h => by omega⟩
    | selfMintOp c p b =>
      obtain ⟨-, hl, hcap, hlt⟩ := ok_selfMint hro
      rw [if_pos ⟨rfl, hok⟩]
      exact ⟨hcap, hl, fun h => by omega⟩
    | mintAttrsOp c md =>
      obtain ⟨-, hl, hcap, hlt⟩ := ok_mintAttrs hro
      rw [if_pos ⟨rfl, hok⟩]
      exact ⟨hcap, hl, fun h => by omega⟩
    | order c n f =>
      obtain ⟨-, -, hl, hcap⟩ := ok_order hro
      rw [if_neg (by simp [isMintOp])]
      exact ⟨hcap, by omega, fun h => by omega⟩
    | sign c n f =>
      obtain ⟨-, -, hl, hcap⟩ := ok_sign hro
      rw [if_neg (by simp [isMintOp])]
      exact ⟨hcap, by omega, fun h => by omega⟩
    | addSig c n a f =>
      obtain ⟨-, -, -, hl, hcap⟩ := ok_addSig hro
      rw [if_neg (by simp [isMintOp])]
      exact ⟨hcap, by omega, fun h => by omega⟩
    | removeSig c n a f =>
      obtain ⟨-, -, -, -, hl, hcap⟩ := ok_removeSig hro
      rw [if_neg (by simp [isMintOp])]
      exact ⟨hcap, by omega, fun h => by omega⟩
    | setThreshold c n th f =>
      obtain ⟨-, -, -, -, hl, hcap⟩ := ok_setThreshold hro
      rw [if_neg (by simp [isMintOp])]
      exact ⟨hcap, by omega, fun h => by omega⟩
    | setTimelimit c n tl f =>
      obtain ⟨-, -, hl, hcap⟩ := ok_setTimelimit hro
      rw [if_neg (by simp [isMintOp])]
      exact ⟨hcap, by omega, fun h => by omega⟩
    | pauseOp c =>
      obtain ⟨-, -, hl, hcap⟩ := ok_pause hro
      rw [if_neg (by simp [isMintOp])]
      exact ⟨hcap, by omega, fun h => by omega⟩
    | unpauseOp c n f =>
      obtain ⟨-, -, hl, hcap⟩ := ok_unpause hro
      rw [if_neg (by simp [isMintOp])]
      exact ⟨hcap, by omega, fun h => by omega⟩
    | transferOwn c n a f =>
      obtain ⟨-, -, hl, hcap⟩ := ok_transferOwn hro
      rw [if_neg (by simp [isMintOp])]
      exact ⟨hcap, by omega, fun h => by omega⟩
    | updateCode c n hash f =>
      have he : (runOp s (Op.updateCode c n hash f)).2 = s :=
        @ok_updateCode s c n hash f ((runOp s (Op.updateCode c n hash f)).2) hro
      rw [if_neg (by simp [isMintOp]), he]
      exact ⟨rfl, by omega, fun h => h⟩

/-- Run-level consequences of `applyOp_mint_facts`. -/
theorem run_mint_facts (ops : List Op) : ∀ s : Psp34Nft,
    (run s ops).access.cap = s.access.cap ∧
    (run s ops).last_token_id = s.last_token_id + mintCount s ops ∧
    (s.last_token_id ≤ s.access.cap - 1 →
      (run s ops).last_token_id ≤ s.access.cap - 1) := by
  induction ops with
  | nil =>
    intro s
    exact ⟨rfl, by simp [mintCount, run], fun h => h⟩
  | cons op t ih =>
    intro s
    obtain ⟨hcap, hl, hb⟩ := applyOp_mint_facts s op
    obtain ⟨ihc, ihl, ihb⟩ := ih (applyOp s op)
    have hrun : run s (op :: t) = run (applyOp s op) t := rfl
    refine ⟨?_, ?_, ?_⟩
    · rw [hrun, ihc, hcap]
    · rw [hrun, ihl, hl]
      simp only [mintCount]
      omega
    · intro h
      have h2 := hb h
      have h3 := ihb (by rw [hcap]; exact h2)
      rw [hcap] at h3
      rw [hrun]
      exact h3

/-- Shape of a successfully constructed contract. -/
theorem new_some {name symbol cls : String} {cap price tok tl c s2 s3 : Nat} {s0 : Psp34Nft}
    (h : Psp34Nft.new name symbol cls cap price tok tl c s2 s3 = some s0) :
    s0.multisig.signatories = [c, s2, s3] ∧ s0.multisig.threshold = 2 ∧
    s0.last_token_id = 0 ∧ s0.access.cap = cap ∧ c ≠ s2 ∧ c ≠ s3 ∧ s2 ≠ s3 := by
  unfold Psp34Nft.new at h
  split_ifs at h with h1 h2 h3
  all_goals
    first
      | exact Option.noConfusion h
      | (simp only [Option.some.injEq] at h
         subst h
         push_neg at h1
         exact ⟨rfl, rfl, rfl, rfl, h1.1, h1.2, h2⟩)

/-- Claim C4: the invariant that the signatory count is at least
`threshold + 1` holds at construction (three signatories, threshold 2) and in
every state reachable by any message sequence; `remove_signatory` rejects with
TooFewSignatories exactly when the removal would leave at most `threshold + 1`
members, and `change_threshold` rejects a threshold below 2 with
UnderThresholdMin and one whose `threshold + 1` would exceed the signatory
count with TooFewSignatories. -/
theorem signatory_floor :
    (∀ (name symbol cls : String) (cap price tok tl c s2 s3 : Nat) (s0 : Psp34Nft),
      Psp34Nft.new name symbol cls cap price tok tl c s2 s3 = some s0 →
      s0.multisig.threshold = 2 ∧ s0.multisig.signatories.length = 3 ∧
      ∀ ops : List Op,
        (run s0 ops).multisig.threshold + 1 ≤ (run s0 ops).multisig.signatories.length) ∧
    (∀ (s : Psp34Nft) (c n a : Nat) (f : String),
      s.check_multisig c n f = Except.ok () → a ≠ ZERO_ADDRESS → a ∈ s.multisig.signatories →
      s.multisig.threshold + 1 ≤ U16_MAX →
      s.multisig.signatories.length ≤ s.multisig.threshold + 1 →
      s.remove_signatory c n a f = (Except.error Err.TooFewSignatories, s)) ∧
    (∀ (s : Psp34Nft) (c n th : Nat) (f : String),
      s.check_multisig c n f = Except.ok () →
      ((th < THRESHOLD_MIN →
        s.change_threshold c n th f = (Except.error Err.UnderThresholdMin, s)) ∧
       (THRESHOLD_MIN ≤ th → th + 1 ≤ U16_MAX → s.multisig.signatories.length < th + 1 →
        s.change_threshold c n th f = (Except.error Err.TooFewSignatories, s)))) := by
  refine ⟨?_, ?_, ?_⟩
  · intro name symbol cls cap price tok tl c s2 s3 s0 h
    obtain ⟨hsig, hthr, -, -, h12, h13, h23⟩ := new_some h
    have hinv : MsInv s0 := by
      constructor
      · rw [hsig]
        simp [h12, h13, h23]
      · rw [hthr, hsig]
        simp
    exact ⟨hthr, by rw [hsig]; rfl, fun ops => (run_msinv ops s0 hinv).2⟩
  · intro s c n a f hchk hz hmem hovf hlen
    simp [Psp34Nft.remove_signatory, hchk, hz, hmem, Nat.not_lt.mpr hovf, hlen]
  · intro s c n th f hchk
    constructor
    · intro hlt
      simp [Psp34Nft.change_threshold, hchk, hlt]
    · intro hge hovf hlen
      simp [Psp34Nft.change_threshold, hchk, Nat.not_lt.mpr hge, Nat.not_lt.mpr hovf, hlen]

/-- Freshly constructed contract for the C4 witness. -/
def wit4Init : Psp34Nft :=
  (Psp34Nft.new "n" "s" "c" 9 1 99 600000 5 6 7).getD default

/-- Concrete state whose consumption check passes with threshold 2 and three
signatories. -/
def wit4State : Psp34Nft :=
  { (default : Psp34Nft) with
    multisig :=
      { tx :=
          { orderer := DEFAULT_ACCOUNT
            signatures := [{ signer := 5, time := 0 }, { signer := 6, time := 0 }]
            function := CHANGE_THRESHOLD
            time := 0
            ready := false }
        signatories := [5, 6, 7]
        threshold := 2
        timelimit := 600000 } }

/-- Witness for C4 on a freshly constructed contract and a concrete
quorum-satisfied state. -/
theorem signatory_floor_witness :
    ((run wit4Init [Op.order 5 700000 "UNPAUSE"]).multisig.threshold + 1 ≤
      (run wit4Init [Op.order 5 700000 "UNPAUSE"]).multisig.signatories.length) ∧
    wit4State.remove_signatory 5 1 6 "CHANGE_THRESHOLD" =
      (Except.error Err.TooFewSignatories, wit4State) ∧
    wit4State.change_threshold 5 1 1 "CHANGE_THRESHOLD" =
      (Except.error Err.UnderThresholdMin, wit4State) ∧
    wit4State.change_threshold 5 1 5 "CHANGE_THRESHOLD" =
      (Except.error Err.TooFewSignatories, wit4State) :=
  ⟨((signatory_floor.1 "n" "s" "c" 9 1 99 600000 5 6 7 wit4Init (by decide)).2.2
      [Op.order 5 700000 "UNPAUSE"]),
    signatory_floor.2.1 wit4State 5 1 6 "CHANGE_THRESHOLD" (by decide) (by decide) (by decide)
      (by decide) (by decide),
    (signatory_floor.2.2 wit4State 5 1 1 "CHANGE_THRESHOLD" (by decide)).1 (by decide),
    (signatory_floor.2.2 wit4State 5 1 5 "CHANGE_THRESHOLD" (by decide)).2 (by decide)
      (by decide) (by decide)⟩

/-- Claim C7: every embedded public operation is atomic — a failing run leaves
the observable state exactly as before the call (ink! 4 reverts storage writes
of messages returning `Err`); in particular the mint path that fails its cap
check *after* incrementing `last_token_id` exhibits a raw partial write that
is not observable through `applyOp`. -/
theorem operation_atomicity :
    (∀ (s : Psp34Nft) (op : Op) (e : Err), (runOp s op).1 = Except.error e → applyOp s op = s) ∧
    (∀ (s : Psp34Nft) (c : Nat), c = s.ownable_owner → s.paused = false →
      s.last_token_id + 1 < U64_LIMIT → s.access.cap ≤ s.last_token_id + 1 →
      (s.mint c).1 = Except.error Err.CapReached ∧
      (s.mint c).2.last_token_id = s.last_token_id + 1 ∧
      applyOp s (Op.mintOp c) = s) := by
  constructor
  · intro s op e he
    exact applyOp_of_err (by rw [he]; simp)
  · intro s c hc hp hov hcap
    have h1 : ¬c ≠ s.ownable_owner := by simp [hc]
    refine ⟨?_, ?_, ?_⟩
    · simp [Psp34Nft.mint, h1, hp, Nat.not_le.mpr hov, hcap]
    · simp [Psp34Nft.mint, h1, hp, Nat.not_le.mpr hov, hcap]
    · exact applyOp_of_err
        (by simp [runOp, Psp34Nft.mint, h1, hp, Nat.not_le.mpr hov, hcap])

/-- Contract with cap 1: the first mint already trips the cap check. -/
def wit7State : Psp34Nft :=
  { (default : Psp34Nft) with
    access := { cap := 1, nft_psp22price := 0, collections := [] } }

/-- Witness for C7: a cap-1 contract whose mint fails after the increment, and
a failing pause call, both leave the observable state unchanged. -/
theorem operation_atomicity_witness :
    (wit7State.mint 0).1 = Except.error Err.CapReached ∧
    (wit7State.mint 0).2.last_token_id = wit7State.last_token_id + 1 ∧
    applyOp wit7State (Op.mintOp 0) = wit7State ∧
    applyOp wit7State (Op.pauseOp 5) = wit7State :=
  have h2 := operation_atomicity.2 wit7State 0 (by decide) (by decide) (by decide) (by decide)
  ⟨h2.1, h2.2.1, h2.2.2,
    operation_atomicity.1 wit7State (Op.pauseOp 5) Err.CallerNotSignatory (by decide)⟩

/-- Claim C8: every mint path succeeds only when the incremented
`last_token_id` is strictly below the cap, so token ids range over
`1 .. cap - 1`; along any message history from a freshly constructed contract
the number of successful mints equals `last_token_id` and never exceeds
`cap - 1` — a contract with cap `N` can never mint an `N`-th token. -/
theorem mint_cap_bound :
    (∀ (s : Psp34Nft) (c : Nat) (t : Psp34Nft), s.mint c = (Except.ok (), t) →
      t.last_token_id = s.last_token_id + 1 ∧ 1 ≤ t.last_token_id ∧
      t.last_token_id < s.access.cap) ∧
    (∀ (s : Psp34Nft) (c r : Nat) (t : Psp34Nft), s.mint_to c r = (Except.ok (), t) →
      t.last_token_id = s.last_token_id + 1 ∧ 1 ≤ t.last_token_id ∧
      t.last_token_id < s.access.cap) ∧
    (∀ (s : Psp34Nft) (c p : Nat) (b : Bool) (t : Psp34Nft),
      s.self_mint c p b = (Except.ok (), t) →
      t.last_token_id = s.last_token_id + 1 ∧ 1 ≤ t.last_token_id ∧
      t.last_token_id < s.access.cap) ∧
    (∀ (s : Psp34Nft) (c : Nat) (md : List (String × String)) (t : Psp34Nft),
      s.mint_with_attributes c md = (Except.ok (), t) →
      t.last_token_id = s.last_token_id + 1 ∧ 1 ≤ t.last_token_id ∧
      t.last_token_id < s.access.cap) ∧
    (∀ (name symbol cls : String) (cap price tok tl c s2 s3 : Nat) (s0 : Psp34Nft),
      Psp34Nft.new name symbol cls cap price tok tl c s2 s3 = some s0 →
      ∀ ops : List Op,
        (run s0 ops).last_token_id = mintCount s0 ops ∧ mintCount s0 ops ≤ cap - 1) := by
  refine ⟨?_, ?_, ?_, ?_, ?_⟩
  · intro s c t h
    obtain ⟨-, hl, -, hlt⟩ := ok_mint h
    exact ⟨hl, by omega, by omega⟩
  · intro s c r t h
    obtain ⟨-, hl, -, hlt⟩ := ok_mintTo h
    exact ⟨hl, by omega, by omega⟩
  · intro s c p b t h
    obtain ⟨-, hl, -, hlt⟩ := ok_selfMint h
    exact ⟨hl, by omega, by omega⟩
  · intro s c md t h
    obtain ⟨-, hl, -, hlt⟩ := ok_mintAttrs h
    exact ⟨hl, by omega, by omega⟩
  · intro name symbol cls cap price tok tl c s2 s3 s0 h ops
    obtain ⟨-, -, hl0, hcap0, -, -, -⟩ := new_some h
    obtain ⟨hc, hl, hb⟩ := run_mint_facts ops s0
    have hcnt : (run s0 ops).last_token_id = mintCount s0 ops := by
      rw [hl, hl0]
      omega
    refine ⟨hcnt, ?_⟩
    have hbb := hb (by rw [hl0]; exact Nat.zero_le _)
    rw [hcnt] at hbb
    rw [hcap0] at hbb
    exact hbb

/-- Freshly constructed contract with cap 2 for the C8 witness. -/
def wit8Init : Psp34Nft :=
  (Psp34Nft.new "n" "s" "c" 2 1 99 600000 10 20 30).getD default

/-- Witness for C8: with cap 2, two mint attempts produce exactly one token. -/
theorem mint_cap_bound_witness :
    ((run wit8Init [Op.mintOp 10, Op.mintOp 10]).last_token_id =
      mintCount wit8Init [Op.mintOp 10, Op.mintOp 10] ∧
      mintCount wit8Init [Op.mintOp 10, Op.mintOp 10] ≤ 2 - 1) ∧
    (wit8Init.mint 10).2.last_token_id = wit8Init.last_token_id + 1 :=
  ⟨mint_cap_bound.2.2.2.2 "n" "s" "c" 2 1 99 600000 10 20 30 wit8Init (by decide)
      [Op.mintOp 10, Op.mintOp 10],
    (mint_cap_bound.1 wit8Init 10 (wit8Init.mint 10).2
      (Prod.ext (by decide) rfl)).1⟩
